import Mathlib

/-!
Verification of `src/processors/custom_processor.rs` (Aptos-Scan/aptos-indexer)
against its natural-language specification.

The Rust file is embedded shallowly:
* the entity model types live in `crate::models::*`, which is not part of this
  repository snapshot; the spec describes them (§3), and the processor code
  never inspects any field except `CurrentTableItem.table_handle`,
  `CurrentTableItem.key_hash` and `TableMetadata.handle`, so every other model
  type is an opaque payload here;
* `Publisher::send_txs` (crate::driver::publisher, not in the snapshot) is,
  per the spec (§4.4, §6), a fire-and-forget delivery of a batch of
  transaction records to an external sink whose return value is never
  consulted; it is modelled as appending the batch to a delivery log;
* diesel's `build_transaction().read_write().run(closure)` is modelled by an
  explicit outcome oracle: the machinery may fail before the closure runs
  (`BEGIN` fails), or the closure runs and the commit fails (database effects
  rolled back, external side effects of the closure kept), or everything
  succeeds.  The closure may also return an error itself, which rolls back.
-/

set_option linter.unusedVariables false

/-- Opaque raw input transaction (`aptos_api_types::Transaction`); the
processor hands it to the decomposer without looking inside. -/
abbrev Transaction := String

/-- Modelled from the spec: canonical transaction record
(`crate::models::transactions::TransactionModel`, not under src/); opaque to
the processor code, which only moves whole records around. -/
abbrev TransactionModel := String

/-- Modelled from the spec: user-transaction record
(`crate::models::user_transactions::UserTransactionModel`, not under src/);
opaque payload. -/
abbrev UserTransactionModel := String

/-- Modelled from the spec: signature record
(`crate::models::signatures::Signature`, not under src/); opaque payload. -/
abbrev Signature := String

/-- Modelled from the spec: block-metadata-transaction record
(`crate::models::block_metadata_transactions::BlockMetadataTransactionModel`,
not under src/); opaque payload. -/
abbrev BlockMetadataTransactionModel := String

/-- Modelled from the spec: event record
(`crate::models::events::EventModel`, not under src/); opaque payload. -/
abbrev EventModel := String

/-- Modelled from the spec: write-set-change record
(`crate::models::write_set_changes::WriteSetChangeModel`, not under src/);
opaque payload. -/
abbrev WriteSetChangeModel := String

/-- Modelled from the spec: move-module record
(`crate::models::move_modules::MoveModule`, not under src/); opaque payload. -/
abbrev MoveModule := String

/-- Modelled from the spec: move-resource record
(`crate::models::move_resources::MoveResource`, not under src/); opaque
payload. -/
abbrev MoveResource := String

/-- Modelled from the spec: append-only table-item record
(`crate::models::move_tables::TableItem`, not under src/); opaque payload. -/
abbrev TableItem := String

/-- Modelled from the spec: current table item
(`crate::models::move_tables::CurrentTableItem`, not under src/): latest known
value of a table slot, keyed by `(table_handle, key_hash)`.  The processor
reads exactly the two key fields.  Handles and hashes are opaque totally
ordered identifiers in the processor (Rust compares them lexicographically);
they are abstracted as naturals with their total order. -/
structure CurrentTableItem where
  table_handle : Nat
  key_hash : Nat
  value : String
deriving DecidableEq, Repr

/-- Modelled from the spec: table metadata
(`crate::models::move_tables::TableMetadata`, not under src/): key/value type
layout of a table, keyed by `handle` (same opaque ordered identifier as in
`CurrentTableItem`).  The processor reads exactly `handle`. -/
structure TableMetadata where
  handle : Nat
  key_type : String
  value_type : String
deriving DecidableEq, Repr

/-- `crate::models::transactions::TransactionDetail`: per-transaction detail
variant consumed by the first loop of `process_transactions`. -/
inductive TransactionDetail where
  | User (user_txn : UserTransactionModel) (sigs : List Signature)
  | BlockMetadata (bmt : BlockMetadataTransactionModel)
deriving DecidableEq, Repr

/-- `crate::models::write_set_changes::WriteSetChangeDetail`: per-write-set
change detail variant consumed by the second loop of `process_transactions`. -/
inductive WriteSetChangeDetail where
  | Module (module : MoveModule)
  | Resource (resource : MoveResource)
  | Table (item : TableItem) (current_item : CurrentTableItem)
      (metadata : Option TableMetadata)
deriving DecidableEq, Repr

/-- Association-list embedding of `std::collections::HashMap::insert`: replace
the value of an existing key in place, otherwise add the binding.  Iteration
order of the Rust map is arbitrary; the processor sorts the values afterwards,
and the canonicity theorems below show the sorted output does not depend on
the pre-sort order. -/
def insertAL {κ β : Type} [DecidableEq κ] :
    List (κ × β) → κ → β → List (κ × β)
  | [], k, v => [(k, v)]
  | (k', v') :: t, k, v =>
    if k' = k then (k, v) :: t else (k', v') :: insertAL t k v

/-- Association-list lookup (`HashMap::get`), used only in proofs. -/
def lookupAL {κ β : Type} [DecidableEq κ] : List (κ × β) → κ → Option β
  | [], _ => none
  | (k', v') :: t, k => if k' = k then some v' else lookupAL t k

/-- Identity key of a current table item: `(table_handle, key_hash)`. -/
def citKey (c : CurrentTableItem) : Nat × Nat :=
  (c.table_handle, c.key_hash)

/-- Lexicographic `≤` on key pairs, the order used by
`(&a.table_handle, &a.key_hash).cmp(&(&b.table_handle, &b.key_hash))`. -/
def pairLe (a b : Nat × Nat) : Prop :=
  a.1 < b.1 ∨ (a.1 = b.1 ∧ a.2 ≤ b.2)

instance : DecidableRel pairLe := fun a b => by
  unfold pairLe; infer_instance

/-- Comparison used to sort `current_table_items` by primary key. -/
def citLe (a b : CurrentTableItem) : Prop := pairLe (citKey a) (citKey b)

instance : DecidableRel citLe := fun a b => by
  unfold citLe; infer_instance

/-- Comparison used to sort `table_metadata` by `handle`
(`a.handle.cmp(&b.handle)`). -/
def tmLe (a b : TableMetadata) : Prop := a.handle ≤ b.handle

instance : DecidableRel tmLe := fun a b => by
  unfold tmLe; infer_instance

/-- One iteration of the `for detail in txn_details` loop: `User` appends the
cloned signatures and pushes the user record, `BlockMetadata` pushes the
block-metadata record.  The accumulator is the triple of mutable vectors
`(signatures, user_transactions, block_metadata_transactions)`. -/
def txnDetailStep
    (acc : List Signature × List UserTransactionModel
      × List BlockMetadataTransactionModel)
    (detail : TransactionDetail) :
    List Signature × List UserTransactionModel
      × List BlockMetadataTransactionModel :=
  match detail with
  | TransactionDetail.User user_txn sigs =>
    (acc.1 ++ sigs, acc.2.1 ++ [user_txn], acc.2.2)
  | TransactionDetail.BlockMetadata bmt =>
    (acc.1, acc.2.1, acc.2.2 ++ [bmt])

/-- State of the first loop of `process_transactions`, over `txn_details`:
the three mutable vectors `signatures`, `user_transactions`,
`block_metadata_transactions`, starting empty. -/
def splitTxnDetails (txn_details : List TransactionDetail) :
    List Signature × List UserTransactionModel × List BlockMetadataTransactionModel :=
  txn_details.foldl txnDetailStep ([], [], [])

/-- State of the second loop of `process_transactions`, over `wsc_details`:
the vectors `move_modules`, `move_resources`, `table_items` and the two
hash maps `current_table_items`, `table_metadata`. -/
structure WscAcc where
  move_modules : List MoveModule
  move_resources : List MoveResource
  table_items : List TableItem
  current_table_items : List ((Nat × Nat) × CurrentTableItem)
  table_metadata : List (Nat × TableMetadata)
deriving Repr

/-- One iteration of the `for detail in wsc_details` loop. -/
def wscStep (acc : WscAcc) (detail : WriteSetChangeDetail) : WscAcc :=
  match detail with
  | WriteSetChangeDetail.Module module =>
    { acc with move_modules := acc.move_modules ++ [module] }
  | WriteSetChangeDetail.Resource resource =>
    { acc with move_resources := acc.move_resources ++ [resource] }
  | WriteSetChangeDetail.Table item current_item metadata =>
    { acc with
      table_items := acc.table_items ++ [item]
      current_table_items :=
        insertAL acc.current_table_items
          (current_item.table_handle, current_item.key_hash) current_item
      table_metadata :=
        match metadata with
        | some meta => insertAL acc.table_metadata meta.handle meta
        | none => acc.table_metadata }

/-- The whole `for detail in wsc_details` loop. -/
def collapseWsc (wsc_details : List WriteSetChangeDetail) : WscAcc :=
  wsc_details.foldl wscStep ⟨[], [], [], [], []⟩

/-- `current_table_items.into_values().collect::<Vec<_>>()` before sorting. -/
def currentTableItemsPre (wsc_details : List WriteSetChangeDetail) :
    List CurrentTableItem :=
  (collapseWsc wsc_details).current_table_items.map Prod.snd

/-- `table_metadata.into_values().collect::<Vec<_>>()` before sorting. -/
def tableMetadataPre (wsc_details : List WriteSetChangeDetail) :
    List TableMetadata :=
  (collapseWsc wsc_details).table_metadata.map Prod.snd

/-- `current_table_items` after `sort_by` on `(table_handle, key_hash)`. -/
def collapsedCurrentTableItems (wsc_details : List WriteSetChangeDetail) :
    List CurrentTableItem :=
  List.insertionSort citLe (currentTableItemsPre wsc_details)

/-- `table_metadata` after `sort_by` on `handle`. -/
def collapsedTableMetadata (wsc_details : List WriteSetChangeDetail) :
    List TableMetadata :=
  List.insertionSort tmLe (tableMetadataPre wsc_details)

/-- Output of the second loop plus the two sorts, as handed to
`insert_to_db`. -/
def collapseWscDetails (wsc_details : List WriteSetChangeDetail) :
    List MoveModule × List MoveResource × List TableItem
      × List CurrentTableItem × List TableMetadata :=
  ((collapseWsc wsc_details).move_modules,
   (collapseWsc wsc_details).move_resources,
   (collapseWsc wsc_details).table_items,
   collapsedCurrentTableItems wsc_details,
   collapsedTableMetadata wsc_details)

/-- Opaque stand-in for `diesel::result::Error` values; the processor only
wraps and forwards them, so only identity matters. -/
abbrev DbError := Nat

/-- The database: one table of rows per entity kind, as the eleven insert
targets of `insert_to_db_impl` would populate them. -/
structure Db where
  transactions : List TransactionModel
  user_transactions : List UserTransactionModel
  signatures : List Signature
  block_metadata_transactions : List BlockMetadataTransactionModel
  events : List EventModel
  write_set_changes : List WriteSetChangeModel
  move_modules : List MoveModule
  move_resources : List MoveResource
  table_items : List TableItem
  current_table_items : List CurrentTableItem
  table_metadata : List TableMetadata
deriving DecidableEq, Repr

/-- The empty database. -/
def emptyDb : Db := ⟨[], [], [], [], [], [], [], [], [], [], []⟩

/-- Observable world state threaded through the writer: the database plus the
log of batches delivered to the external sink by `Publisher::send_txs`. -/
structure PState where
  db : Db
  sent : List (List TransactionModel)
deriving DecidableEq, Repr

/-- Outcome oracle for one `conn.build_transaction().read_write().run(body)`
call.  `success`: `BEGIN`, the closure and `COMMIT` all succeed.
`failBegin e`: the machinery fails before the closure runs (e.g. the
connection cannot begin a transaction), so the closure is never invoked.
`failCommit e`: the closure runs and returns `Ok`, but the commit fails;
database effects are rolled back, while the closure's external (non-database)
side effects have already happened and are not retracted. -/
inductive TxOutcome where
  | success
  | failBegin (e : DbError)
  | failCommit (e : DbError)
deriving DecidableEq, Repr

/-- Embedding of `conn.build_transaction().read_write().run(body)`.  A closure
error also rolls the database back and is returned as the attempt's error. -/
def runStorageTx (o : TxOutcome) (body : PState → PState × Except DbError Unit)
    (s : PState) : PState × Except DbError Unit :=
  match o with
  | TxOutcome.success =>
    match body s with
    | (s', Except.ok _) => (s', Except.ok ())
    | (s', Except.error e) => ({ s' with db := s.db }, Except.error e)
  | TxOutcome.failBegin e => (s, Except.error e)
  | TxOutcome.failCommit e =>
    match body s with
    | (s', Except.ok _) => ({ s' with db := s.db }, Except.error e)
    | (s', Except.error e2) => ({ s' with db := s.db }, Except.error e2)

/-- Modelled from the spec: `crate::database::clean_data_for_db` (not under
src/) is one generic sanitize pass, "a strict, value-preserving-where-possible
cleanup (e.g., stripping characters illegal in the storage encoding)"; it is
generic over the entity type, so it is modelled as an abstract family of
per-entity-type list transformations.  The constant `true` flag passed at
every call site is folded into the family. -/
structure Sanitizer where
  cleanTransactions : List TransactionModel → List TransactionModel
  cleanUserTransactions : List UserTransactionModel → List UserTransactionModel
  cleanSignatures : List Signature → List Signature
  cleanBlockMetadataTransactions :
    List BlockMetadataTransactionModel → List BlockMetadataTransactionModel
  cleanEvents : List EventModel → List EventModel
  cleanWriteSetChanges : List WriteSetChangeModel → List WriteSetChangeModel
  cleanMoveModules : List MoveModule → List MoveModule
  cleanMoveResources : List MoveResource → List MoveResource
  cleanTableItems : List TableItem → List TableItem
  cleanCurrentTableItems : List CurrentTableItem → List CurrentTableItem
  cleanTableMetadata : List TableMetadata → List TableMetadata

/-- A sanitizer that changes nothing, usable as a concrete instantiation. -/
def idSanitizer : Sanitizer :=
  ⟨id, id, id, id, id, id, id, id, id, id, id⟩

/-- `insert_transactions`: the only live statement is
`publisher.send_txs(items_to_insert)` — the chunked
`diesel::insert_into(schema::transactions::table)` upsert below it is
commented out in the source — then `Ok(())`.  Modelled from the spec for the
sink itself: `send_txs` delivers the batch to the external sink (appended to
the delivery log) and its return value is not consulted. -/
def insert_transactions (items_to_insert : List TransactionModel)
    (s : PState) : PState × Except DbError Unit :=
  ({ s with sent := s.sent ++ [items_to_insert] }, Except.ok ())

/-- `insert_to_db_impl`: the per-attempt body run inside the storage
transaction.  It calls `insert_transactions(publisher, txns)?` and then
returns `Ok(())`; the other ten insert calls (`insert_user_transactions`,
`insert_signatures`, `insert_block_metadata_transactions`, `insert_events`,
`insert_write_set_changes`, `insert_move_modules`, `insert_move_resources`,
`insert_table_items`, `insert_current_table_items`, `insert_table_metadata`)
are commented out in the source, so no entity batch touches the database. -/
def insert_to_db_impl (txns : List TransactionModel)
    (txn_details : List UserTransactionModel × List Signature
      × List BlockMetadataTransactionModel)
    (events : List EventModel)
    (wscs : List WriteSetChangeModel)
    (wsc_details : List MoveModule × List MoveResource × List TableItem
      × List CurrentTableItem × List TableMetadata)
    (s : PState) : PState × Except DbError Unit :=
  match insert_transactions txns s with
  | (s1, Except.ok _) => (s1, Except.ok ())
  | (s1, Except.error e) => (s1, Except.error e)

/-- `insert_to_db`: run `insert_to_db_impl` inside a storage transaction; on
`Ok` return `Ok(())`; on `Err(_)` (the first attempt's error value is
discarded by the wildcard pattern) apply `clean_data_for_db` to all eleven
batches and run one more storage transaction with the sanitized data,
returning that second attempt's result.  `name`, `start_version` and
`end_version` are used only by the `aptos_logger::trace!` call. -/
def insert_to_db (cf : Sanitizer) (o1 o2 : TxOutcome)
    (name : String) (start_version end_version : Nat)
    (txns : List TransactionModel)
    (txn_details : List UserTransactionModel × List Signature
      × List BlockMetadataTransactionModel)
    (events : List EventModel)
    (wscs : List WriteSetChangeModel)
    (wsc_details : List MoveModule × List MoveResource × List TableItem
      × List CurrentTableItem × List TableMetadata)
    (s : PState) : PState × Except DbError Unit :=
  let (user_transactions, signatures, block_metadata_transactions) := txn_details
  let (move_modules, move_resources, table_items, current_table_items,
    table_metadata) := wsc_details
  match runStorageTx o1
      (insert_to_db_impl txns
        (user_transactions, signatures, block_metadata_transactions)
        events wscs
        (move_modules, move_resources, table_items, current_table_items,
          table_metadata)) s with
  | (s1, Except.ok _) => (s1, Except.ok ())
  | (s1, Except.error _) =>
    runStorageTx o2
      (insert_to_db_impl (cf.cleanTransactions txns)
        (cf.cleanUserTransactions user_transactions,
         cf.cleanSignatures signatures,
         cf.cleanBlockMetadataTransactions block_metadata_transactions)
        (cf.cleanEvents events)
        (cf.cleanWriteSetChanges wscs)
        (cf.cleanMoveModules move_modules,
         cf.cleanMoveResources move_resources,
         cf.cleanTableItems table_items,
         cf.cleanCurrentTableItems current_table_items,
         cf.cleanTableMetadata table_metadata)) s1

/-- `pub const NAME: &str = "custom_processor"`. -/
def NAME : String := "custom_processor"

/-- Modelled from the spec: `ProcessingResult`
(`crate::indexer::processing_result`, not under src/) carries the processor
identity and the version range (§6 Output). -/
structure ProcessingResult where
  processor_name : String
  start_version : Nat
  end_version : Nat
deriving DecidableEq, Repr

/-- Modelled from the spec: `TransactionProcessingError::TransactionCommitError`
(`crate::indexer::errors`, not under src/) carries the underlying cause, the
version range and the processor identity, exactly as constructed at the error
arm of `process_transactions`. -/
inductive TransactionProcessingError where
  | TransactionCommitError (cause : DbError) (start_version end_version : Nat)
      (processor_name : String)
deriving DecidableEq, Repr

/-- Decomposer output shape of `TransactionModel::from_transactions`. -/
abbrev DecompOutput :=
  List TransactionModel × List TransactionDetail × List EventModel
    × List WriteSetChangeModel × List WriteSetChangeDetail

/-- `process_transactions`: decompose, run the two loops, sort the two keyed
collections, call `insert_to_db`, and wrap the outcome.
`TransactionModel::from_transactions` (crate::models, not under src/) is a
parameter; `cf`, `o1`, `o2` are the sanitize pass and the storage-machinery
outcome oracles of the two attempts. -/
def process_transactions (from_transactions : List Transaction → DecompOutput)
    (cf : Sanitizer) (o1 o2 : TxOutcome)
    (transactions : List Transaction) (start_version end_version : Nat)
    (s : PState) : PState × Except TransactionProcessingError ProcessingResult :=
  let (txns, txn_details, events, write_set_changes, wsc_details) :=
    from_transactions transactions
  let (signatures, user_transactions, block_metadata_transactions) :=
    splitTxnDetails txn_details
  let (move_modules, move_resources, table_items, current_table_items,
    table_metadata) := collapseWscDetails wsc_details
  match insert_to_db cf o1 o2 NAME start_version end_version txns
      (user_transactions, signatures, block_metadata_transactions)
      events write_set_changes
      (move_modules, move_resources, table_items, current_table_items,
        table_metadata) s with
  | (s', Except.ok _) =>
    (s', Except.ok ⟨NAME, start_version, end_version⟩)
  | (s', Except.error e) =>
    (s', Except.error
      (TransactionProcessingError.TransactionCommitError e start_version
        end_version NAME))

/-- Keys of an association list, in storage order. -/
def alKeys {κ β : Type} (l : List (κ × β)) : List κ := l.map Prod.fst

/-- Every stored key of the `current_table_items` map is the identity key of
its value. -/
def CitKeysMatch (m : List ((Nat × Nat) × CurrentTableItem)) : Prop :=
  ∀ p ∈ m, p.1 = citKey p.2

/-- Every stored key of the `table_metadata` map is the handle of its value. -/
def TmKeysMatch (m : List (Nat × TableMetadata)) : Prop :=
  ∀ p ∈ m, p.1 = p.2.handle

def pairLe_total (a b : Nat × Nat) : pairLe a b ∨ pairLe b a := by
  rcases lt_trichotomy a.1 b.1 with h | h | h
  · exact Or.inl (Or.inl h)
  · rcases le_total a.2 b.2 with h2 | h2
    · exact Or.inl (Or.inr ⟨h, h2⟩)
    · exact Or.inr (Or.inr ⟨h.symm, h2⟩)
  · exact Or.inr (Or.inl h)

def pairLe_trans (a b c : Nat × Nat) (h1 : pairLe a b) (h2 : pairLe b c) :
    pairLe a c := by
  rcases h1 with h1 | ⟨h1e, h1le⟩
  · rcases h2 with h2 | ⟨h2e, _⟩
    · exact Or.inl (lt_trans h1 h2)
    · exact Or.inl (h2e ▸ h1)
  · rcases h2 with h2 | ⟨h2e, h2le⟩
    · exact Or.inl (h1e ▸ h2)
    · exact Or.inr ⟨h1e.trans h2e, le_trans h1le h2le⟩

def pairLe_antisymm (a b : Nat × Nat) (h1 : pairLe a b) (h2 : pairLe b a) :
    a = b := by
  rcases h1 with h1 | ⟨h1e, h1le⟩
  · rcases h2 with h2 | ⟨h2e, _⟩
    · exact absurd h2 (lt_asymm h1)
    · exact absurd (h2e ▸ h1) (lt_irrefl _)
  · rcases h2 with h2 | ⟨h2e, h2le⟩
    · exact absurd (h1e ▸ h2) (lt_irrefl _)
    · exact Prod.ext h1e (le_antisymm h1le h2le)

instance : IsTotal CurrentTableItem citLe :=
  ⟨fun a b => pairLe_total (citKey a) (citKey b)⟩

instance : IsTrans CurrentTableItem citLe :=
  ⟨fun a b c => pairLe_trans (citKey a) (citKey b) (citKey c)⟩

instance : IsTotal TableMetadata tmLe := ⟨fun a b => le_total a.handle b.handle⟩

instance : IsTrans TableMetadata tmLe :=
  ⟨fun _ _ _ h1 h2 => le_trans h1 h2⟩

/-- The last `Table` write-set change for key `K` in batch order, i.e. the
occurrence the spec declares semantically current. -/
def lastTableWrite (K : Nat × Nat) (wsc_details : List WriteSetChangeDetail) :
    Option CurrentTableItem :=
  wsc_details.foldl
    (fun o d =>
      match d with
      | WriteSetChangeDetail.Table _ c _ => if citKey c = K then some c else o
      | _ => o)
    none

/-- Signatures contributed by one transaction detail. -/
def detailSigs : TransactionDetail → List Signature
  | TransactionDetail.User _ sigs => sigs
  | TransactionDetail.BlockMetadata _ => []

/-- User record contributed by one transaction detail, if any. -/
def detailUser : TransactionDetail → Option UserTransactionModel
  | TransactionDetail.User user_txn _ => some user_txn
  | TransactionDetail.BlockMetadata _ => none

/-- Block-metadata record contributed by one transaction detail, if any. -/
def detailBmt : TransactionDetail → Option BlockMetadataTransactionModel
  | TransactionDetail.User _ _ => none
  | TransactionDetail.BlockMetadata bmt => some bmt

/-- Order-preserving concatenation of all signatures of a detail sequence. -/
def flatSigs : List TransactionDetail → List Signature
  | [] => []
  | d :: t => detailSigs d ++ flatSigs t

/-- Error value carried by a failed storage-machinery outcome (0 for the
success outcome, which carries none). -/
def TxOutcome.err : TxOutcome → DbError
  | TxOutcome.success => 0
  | TxOutcome.failBegin e => e
  | TxOutcome.failCommit e => e

/-- Whether the attempt's closure body runs under this outcome: it does
except when the machinery fails before the closure (`BEGIN` fails). -/
def TxOutcome.bodyRuns : TxOutcome → Prop
  | TxOutcome.failBegin _ => False
  | _ => True

instance (o : TxOutcome) : Decidable o.bodyRuns := by
  cases o <;> (unfold TxOutcome.bodyRuns; infer_instance)

/-- State after a failed first attempt: unchanged if the machinery failed
before the body ran, otherwise the body's external delivery has happened. -/
def firstAttemptState (o1 : TxOutcome) (txns : List TransactionModel)
    (s : PState) : PState :=
  match o1 with
  | TxOutcome.failBegin _ => s
  | _ => { s with sent := s.sent ++ [txns] }

/-- The property claimed of the per-attempt write body: every element of each
of the eleven entity batches is present in the corresponding database table
afterwards (no batch omitted from the write). -/
def persistsAllBatches (txns : List TransactionModel)
    (txn_details : List UserTransactionModel × List Signature
      × List BlockMetadataTransactionModel)
    (events : List EventModel) (wscs : List WriteSetChangeModel)
    (wsc_details : List MoveModule × List MoveResource × List TableItem
      × List CurrentTableItem × List TableMetadata)
    (db : Db) : Prop :=
  (∀ x ∈ txns, x ∈ db.transactions)
  ∧ (∀ x ∈ txn_details.1, x ∈ db.user_transactions)
  ∧ (∀ x ∈ txn_details.2.1, x ∈ db.signatures)
  ∧ (∀ x ∈ txn_details.2.2, x ∈ db.block_metadata_transactions)
  ∧ (∀ x ∈ events, x ∈ db.events)
  ∧ (∀ x ∈ wscs, x ∈ db.write_set_changes)
  ∧ (∀ x ∈ wsc_details.1, x ∈ db.move_modules)
  ∧ (∀ x ∈ wsc_details.2.1, x ∈ db.move_resources)
  ∧ (∀ x ∈ wsc_details.2.2.1, x ∈ db.table_items)
  ∧ (∀ x ∈ wsc_details.2.2.2.1, x ∈ db.current_table_items)
  ∧ (∀ x ∈ wsc_details.2.2.2.2, x ∈ db.table_metadata)

instance (txns : List TransactionModel)
    (txn_details : List UserTransactionModel × List Signature
      × List BlockMetadataTransactionModel)
    (events : List EventModel) (wscs : List WriteSetChangeModel)
    (wsc_details : List MoveModule × List MoveResource × List TableItem
      × List CurrentTableItem × List TableMetadata)
    (db : Db) :
    Decidable (persistsAllBatches txns txn_details events wscs wsc_details db) := by
  unfold persistsAllBatches
  infer_instance

theorem lookupAL_insertAL_self {κ β : Type} [DecidableEq κ]
    (l : List (κ × β)) (k : κ) (v : β) :
    lookupAL (insertAL l k v) k = some v := by
  induction l with
  | nil => simp [insertAL, lookupAL]
  | cons p t ih =>
    obtain ⟨k', v'⟩ := p
    by_cases h : k' = k
    · simp [insertAL, h, lookupAL]
    · simp [insertAL, h, lookupAL, ih]

theorem lookupAL_insertAL_ne {κ β : Type} [DecidableEq κ]
    (l : List (κ × β)) (k : κ) (v : β) (k₀ : κ) (h : k ≠ k₀) :
    lookupAL (insertAL l k v) k₀ = lookupAL l k₀ := by
  induction l with
  | nil => simp [insertAL, lookupAL, h]
  | cons p t ih =>
    obtain ⟨k', v'⟩ := p
    by_cases hk : k' = k
    · subst hk
      simp [insertAL, lookupAL, h]
    · simp [insertAL, hk, lookupAL, ih]

theorem mem_insertAL {κ β : Type} [DecidableEq κ]
    (l : List (κ × β)) (k : κ) (v : β) (p : κ × β)
    (hp : p ∈ insertAL l k v) : p = (k, v) ∨ p ∈ l := by
  induction l with
  | nil => simpa [insertAL] using hp
  | cons q t ih =>
    obtain ⟨k', v'⟩ := q
    by_cases hk : k' = k
    · simp only [insertAL, hk, if_pos rfl] at hp
      rcases List.mem_cons.mp hp with h | h
      · exact Or.inl h
      · exact Or.inr (List.mem_cons_of_mem _ h)
    · simp only [insertAL, hk, if_neg hk] at hp
      rcases List.mem_cons.mp hp with h | h
      · exact Or.inr (h ▸ List.mem_cons_self _ _)
      · rcases ih h with h' | h'
        · exact Or.inl h'
        · exact Or.inr (List.mem_cons_of_mem _ h')

theorem mem_alKeys_insertAL {κ β : Type} [DecidableEq κ]
    (l : List (κ × β)) (k : κ) (v : β) (x : κ)
    (hx : x ∈ alKeys (insertAL l k v)) : x = k ∨ x ∈ alKeys l := by
  rcases List.mem_map.mp hx with ⟨p, hp, hpx⟩
  rcases mem_insertAL l k v p hp with h | h
  · subst h
    exact Or.inl (by simpa using hpx.symm)
  · exact Or.inr (hpx ▸ List.mem_map_of_mem Prod.fst h)

theorem nodup_alKeys_insertAL {κ β : Type} [DecidableEq κ]
    (l : List (κ × β)) (k : κ) (v : β)
    (h : (alKeys l).Nodup) : (alKeys (insertAL l k v)).Nodup := by
  induction l with
  | nil => simp [insertAL, alKeys]
  | cons p t ih =>
    obtain ⟨k', v'⟩ := p
    by_cases hk : k' = k
    · subst hk
      simpa [insertAL, alKeys] using h
    · simp only [alKeys, List.map_cons, List.nodup_cons] at h
      have ht := ih h.2
      simp only [insertAL, if_neg hk, alKeys, List.map_cons, List.nodup_cons]
      refine ⟨fun hmem => ?_, ht⟩
      rcases mem_alKeys_insertAL t k v k' hmem with h' | h'
      · exact hk h'
      · exact h.1 h'

theorem collapse_cti_lookup (K : Nat × Nat) (ds : List WriteSetChangeDetail) :
    ∀ acc : WscAcc,
      lookupAL ((ds.foldl wscStep acc).current_table_items) K =
        ds.foldl
          (fun o d =>
            match d with
            | WriteSetChangeDetail.Table _ c _ =>
              if citKey c = K then some c else o
            | _ => o)
          (lookupAL acc.current_table_items K) := by
  induction ds with
  | nil => intro acc; rfl
  | cons d t ih =>
    intro acc
    cases d with
    | Module m => simpa [List.foldl_cons, wscStep] using ih _
    | Resource r => simpa [List.foldl_cons, wscStep] using ih _
    | Table item c meta =>
      have step :
          lookupAL ((wscStep acc (WriteSetChangeDetail.Table item c meta)).current_table_items) K =
            (if citKey c = K then some c else lookupAL acc.current_table_items K) := by
        by_cases h : citKey c = K
        · subst h
          simpa [wscStep, citKey] using
            lookupAL_insertAL_self acc.current_table_items (citKey c) c
        · have h' : (c.table_handle, c.key_hash) ≠ K := by simpa [citKey] using h
          have := lookupAL_insertAL_ne acc.current_table_items
            (c.table_handle, c.key_hash) c K h'
          simpa [wscStep, citKey, h'] using this
      calc lookupAL ((List.foldl wscStep acc
              (WriteSetChangeDetail.Table item c meta :: t)).current_table_items) K
          = lookupAL ((List.foldl wscStep
              (wscStep acc (WriteSetChangeDetail.Table item c meta)) t).current_table_items) K := by
            rw [List.foldl_cons]
        _ = _ := by
            rw [ih _, step]
            rfl

theorem collapse_cti_nodupKeys (ds : List WriteSetChangeDetail) :
    ∀ acc : WscAcc, (alKeys acc.current_table_items).Nodup →
      (alKeys ((ds.foldl wscStep acc).current_table_items)).Nodup := by
  induction ds with
  | nil => intro acc h; exact h
  | cons d t ih =>
    intro acc h
    cases d with
    | Module m => exact ih _ (by simpa [wscStep] using h)
    | Resource r => exact ih _ (by simpa [wscStep] using h)
    | Table item c meta =>
      exact ih _ (by
        simpa [wscStep] using
          nodup_alKeys_insertAL acc.current_table_items _ c h)

theorem collapse_cti_keysMatch (ds : List WriteSetChangeDetail) :
    ∀ acc : WscAcc, CitKeysMatch acc.current_table_items →
      CitKeysMatch ((ds.foldl wscStep acc).current_table_items) := by
  induction ds with
  | nil => intro acc h; exact h
  | cons d t ih =>
    intro acc h
    cases d with
    | Module m => exact ih _ (by simpa [wscStep] using h)
    | Resource r => exact ih _ (by simpa [wscStep] using h)
    | Table item c meta =>
      refine ih _ ?_
      intro p hp
      simp only [wscStep] at hp
      rcases mem_insertAL _ _ _ p hp with h' | h'
      · subst h'; rfl
      · exact h p h'

theorem collapse_tm_nodupKeys (ds : List WriteSetChangeDetail) :
    ∀ acc : WscAcc, (alKeys acc.table_metadata).Nodup →
      (alKeys ((ds.foldl wscStep acc).table_metadata)).Nodup := by
  induction ds with
  | nil => intro acc h; exact h
  | cons d t ih =>
    intro acc h
    cases d with
    | Module m => exact ih _ (by simpa [wscStep] using h)
    | Resource r => exact ih _ (by simpa [wscStep] using h)
    | Table item c meta =>
      cases meta with
      | none => exact ih _ (by simpa [wscStep] using h)
      | some meta =>
        exact ih _ (by
          simpa [wscStep] using
            nodup_alKeys_insertAL acc.table_metadata meta.handle meta h)

theorem collapse_tm_keysMatch (ds : List WriteSetChangeDetail) :
    ∀ acc : WscAcc, TmKeysMatch acc.table_metadata →
      TmKeysMatch ((ds.foldl wscStep acc).table_metadata) := by
  induction ds with
  | nil => intro acc h; exact h
  | cons d t ih =>
    intro acc h
    cases d with
    | Module m => exact ih _ (by simpa [wscStep] using h)
    | Resource r => exact ih _ (by simpa [wscStep] using h)
    | Table item c meta =>
      cases meta with
      | none => exact ih _ (by simpa [wscStep] using h)
      | some meta =>
        refine ih _ ?_
        intro p hp
        simp only [wscStep] at hp
        rcases mem_insertAL _ _ _ p hp with h' | h'
        · subst h'; rfl
        · exact h p h'

theorem filter_values_eq_lookup {κ β : Type} [DecidableEq κ] [DecidableEq β]
    (key : β → κ) :
    ∀ (m : List (κ × β)) (K : κ), (alKeys m).Nodup →
      (∀ p ∈ m, p.1 = key p.2) →
      (m.map Prod.snd).filter (fun b => key b = K) = (lookupAL m K).toList := by
  intro m
  induction m with
  | nil => intro K _ _; rfl
  | cons p t ih =>
    intro K hnd hmatch
    obtain ⟨k', v'⟩ := p
    have hk' : k' = key v' := hmatch (k', v') (List.mem_cons_self _ _)
    simp only [alKeys, List.map_cons, List.nodup_cons] at hnd
    have hrec := ih K hnd.2 (fun q hq => hmatch q (List.mem_cons_of_mem _ hq))
    by_cases h : k' = K
    · subst h
      have hfilt : (t.map Prod.snd).filter (fun b => key b = k') = [] := by
        refine List.filter_eq_nil_iff.mpr ?_
        intro b hb
        rcases List.mem_map.mp hb with ⟨q, hq, hqb⟩
        have : q.1 = key b := hqb ▸ hmatch q (List.mem_cons_of_mem _ hq)
        simp only [decide_eq_true_eq]
        intro hbk
        exact hnd.1 (by rw [← hbk, ← this]; exact List.mem_map_of_mem Prod.fst hq)
      simp [lookupAL, List.filter_cons, ← hk', hfilt]
    · have hvK : ¬ key v' = K := by rw [← hk']; exact h
      simp [lookupAL, List.filter_cons, hvK, h, hrec]

theorem citLe_key_antisymm (a b : CurrentTableItem)
    (h1 : citLe a b) (h2 : citLe b a) : citKey a = citKey b :=
  pairLe_antisymm _ _ h1 h2

theorem tmLe_key_antisymm (a b : TableMetadata)
    (h1 : tmLe a b) (h2 : tmLe b a) : a.handle = b.handle :=
  le_antisymm h1 h2

/-- Sorting is canonical on lists whose identity keys are distinct: any two
permutations of the same multiset sort to the same list.  This is what makes
the sorted output independent of the arbitrary iteration order of the Rust
`HashMap`. -/
theorem insertionSort_eq_of_perm_of_nodupKeys {α κ : Type}
    (r : α → α → Prop) [DecidableRel r] [IsTotal α r] [IsTrans α r]
    (key : α → κ) (hanti : ∀ a b, r a b → r b a → key a = key b)
    (l₁ l₂ : List α) (hp : l₁.Perm l₂) (hnd : (l₂.map key).Nodup) :
    List.insertionSort r l₁ = List.insertionSort r l₂ := by
  set r' : α → α → Prop := fun a b => r a b ∧ key a ≠ key b with hr'
  haveI : IsAntisymm α r' :=
    ⟨fun a b h1 h2 => absurd (hanti a b h1.1 h2.1) h1.2⟩
  have hperm : (List.insertionSort r l₁).Perm (List.insertionSort r l₂) :=
    ((List.perm_insertionSort r l₁).trans hp).trans
      (List.perm_insertionSort r l₂).symm
  have sortedStrict : ∀ l : List α, (l.map key).Nodup →
      List.Sorted r' (List.insertionSort r l) := by
    intro l hl
    have hs : List.Sorted r (List.insertionSort r l) :=
      List.sorted_insertionSort r l
    have hmap : ((List.insertionSort r l).map key).Nodup := by
      refine ((List.perm_insertionSort r l).map key).nodup_iff.mpr hl
    have hne : List.Pairwise (fun a b => key a ≠ key b)
        (List.insertionSort r l) := List.pairwise_map.mp hmap
    exact hs.and hne
  have hnd₁ : (l₁.map key).Nodup := ((hp.map key).nodup_iff).mpr hnd
  exact List.eq_of_perm_of_sorted hperm (sortedStrict l₁ hnd₁)
    (sortedStrict l₂ hnd)

theorem lookup_collapseWsc_cti (ds : List WriteSetChangeDetail) (K : Nat × Nat) :
    lookupAL ((collapseWsc ds).current_table_items) K = lastTableWrite K ds := by
  simpa [collapseWsc, lastTableWrite, lookupAL] using
    collapse_cti_lookup K ds ⟨[], [], [], [], []⟩

theorem collapseWsc_cti_nodupKeys (ds : List WriteSetChangeDetail) :
    (alKeys ((collapseWsc ds).current_table_items)).Nodup :=
  collapse_cti_nodupKeys ds ⟨[], [], [], [], []⟩ (by simp [alKeys])

theorem collapseWsc_cti_keysMatch (ds : List WriteSetChangeDetail) :
    CitKeysMatch ((collapseWsc ds).current_table_items) :=
  collapse_cti_keysMatch ds ⟨[], [], [], [], []⟩ (by intro p hp; cases hp)

theorem collapseWsc_tm_nodupKeys (ds : List WriteSetChangeDetail) :
    (alKeys ((collapseWsc ds).table_metadata)).Nodup :=
  collapse_tm_nodupKeys ds ⟨[], [], [], [], []⟩ (by simp [alKeys])

theorem collapseWsc_tm_keysMatch (ds : List WriteSetChangeDetail) :
    TmKeysMatch ((collapseWsc ds).table_metadata) :=
  collapse_tm_keysMatch ds ⟨[], [], [], [], []⟩ (by intro p hp; cases hp)

theorem currentTableItemsPre_map_key (ds : List WriteSetChangeDetail) :
    (currentTableItemsPre ds).map citKey =
      alKeys ((collapseWsc ds).current_table_items) := by
  unfold currentTableItemsPre alKeys
  rw [List.map_map]
  exact List.map_congr_left fun p hp =>
    (collapseWsc_cti_keysMatch ds p hp).symm

theorem currentTableItemsPre_keys_nodup (ds : List WriteSetChangeDetail) :
    ((currentTableItemsPre ds).map citKey).Nodup := by
  rw [currentTableItemsPre_map_key]
  exact collapseWsc_cti_nodupKeys ds

theorem tableMetadataPre_map_key (ds : List WriteSetChangeDetail) :
    (tableMetadataPre ds).map TableMetadata.handle =
      alKeys ((collapseWsc ds).table_metadata) := by
  unfold tableMetadataPre alKeys
  rw [List.map_map]
  exact List.map_congr_left fun p hp =>
    (collapseWsc_tm_keysMatch ds p hp).symm

theorem tableMetadataPre_keys_nodup (ds : List WriteSetChangeDetail) :
    ((tableMetadataPre ds).map TableMetadata.handle).Nodup := by
  rw [tableMetadataPre_map_key]
  exact collapseWsc_tm_nodupKeys ds

theorem filter_currentTableItemsPre (ds : List WriteSetChangeDetail)
    (K : Nat × Nat) :
    (currentTableItemsPre ds).filter (fun c => citKey c = K) =
      (lastTableWrite K ds).toList := by
  unfold currentTableItemsPre
  rw [filter_values_eq_lookup citKey ((collapseWsc ds).current_table_items) K
    (collapseWsc_cti_nodupKeys ds) (collapseWsc_cti_keysMatch ds)]
  rw [lookup_collapseWsc_cti]

theorem splitTxnDetails_foldl (ds : List TransactionDetail) :
    ∀ acc, ds.foldl txnDetailStep acc =
      (acc.1 ++ flatSigs ds, acc.2.1 ++ ds.filterMap detailUser,
        acc.2.2 ++ ds.filterMap detailBmt) := by
  induction ds with
  | nil => intro acc; simp [flatSigs]
  | cons d t ih =>
    intro acc
    cases d with
    | User user_txn sigs =>
      simp [txnDetailStep, ih, flatSigs, detailSigs, detailUser, detailBmt,
        List.filterMap_cons]
    | BlockMetadata bmt =>
      simp [txnDetailStep, ih, flatSigs, detailSigs, detailUser, detailBmt,
        List.filterMap_cons]

/-- C7: the first loop of `process_transactions` flattens the
transaction-detail sequence preserving order and multiplicity: in general the
signature batch is the in-order concatenation of each detail's signatures and
the user / block-metadata batches are the in-order projections; in particular
a detail sequence `[User(1 sig), BlockMetadata, User(2 sigs)]` yields the two
user records in input order, the one block-metadata record, and the three
signatures in transaction order. -/
theorem C7_flatten_order :
    (∀ txn_details : List TransactionDetail,
      splitTxnDetails txn_details =
        (flatSigs txn_details, txn_details.filterMap detailUser,
          txn_details.filterMap detailBmt))
    ∧ (∀ (u1 u2 : UserTransactionModel) (b : BlockMetadataTransactionModel)
        (s1 s2 s3 : Signature),
        splitTxnDetails
          [TransactionDetail.User u1 [s1], TransactionDetail.BlockMetadata b,
            TransactionDetail.User u2 [s2, s3]] =
          ([s1, s2, s3], [u1, u2], [b])) := by
  constructor
  · intro txn_details
    simpa using splitTxnDetails_foldl txn_details ([], [], [])
  · intro u1 u2 b s1 s2 s3
    rfl

/-- C5: within one batch the later write to the same `(table_handle,
key_hash)` key wins: if the last `Table` write-set change for key `K` carries
current item `c2` (e.g. values `v1` then `v2` with `v2` later in sequence
order), the collapsed `current_table_items` output contains exactly one entry
for `K`, and it is `c2`. -/
theorem C5_last_write_wins (ds : List WriteSetChangeDetail) (K : Nat × Nat)
    (c2 : CurrentTableItem) (h : lastTableWrite K ds = some c2) :
    (collapsedCurrentTableItems ds).filter (fun c => citKey c = K) = [c2] := by
  have hpre : (currentTableItemsPre ds).filter (fun c => citKey c = K) = [c2] := by
    rw [filter_currentTableItemsPre, h]
    rfl
  unfold collapsedCurrentTableItems
  have hperm :
      List.Perm
        ((List.insertionSort citLe (currentTableItemsPre ds)).filter
          (fun c => citKey c = K))
        ((currentTableItemsPre ds).filter (fun c => citKey c = K)) :=
    List.Perm.filter _ (List.perm_insertionSort citLe (currentTableItemsPre ds))
  rw [hpre] at hperm
  exact List.perm_singleton.mp hperm

/-- Witness for C5 at the spec's own example (§8 scenario 2): table handle 1,
key hash 1 written with value `"{n:1}"` then `"{n:2}"`, plus key hash 2 with
`"{n:9}"`; the collapsed output holds exactly one entry for key `(1, 1)` and
its value is `"{n:2}"`. -/
theorem C5_last_write_wins_witness :
    lastTableWrite (1, 1)
        [WriteSetChangeDetail.Table "i1" ⟨1, 1, "{n:1}"⟩ none,
          WriteSetChangeDetail.Table "i2" ⟨1, 1, "{n:2}"⟩ none,
          WriteSetChangeDetail.Table "i3" ⟨1, 2, "{n:9}"⟩ none] =
        some ⟨1, 1, "{n:2}"⟩
    ∧ (collapsedCurrentTableItems
        [WriteSetChangeDetail.Table "i1" ⟨1, 1, "{n:1}"⟩ none,
          WriteSetChangeDetail.Table "i2" ⟨1, 1, "{n:2}"⟩ none,
          WriteSetChangeDetail.Table "i3" ⟨1, 2, "{n:9}"⟩ none]).filter
        (fun c => citKey c = (1, 1)) = [⟨1, 1, "{n:2}"⟩] :=
  ⟨by decide,
    C5_last_write_wins _ (1, 1) ⟨1, 1, "{n:2}"⟩ (by decide)⟩

/-- C6: the collapsed `current_table_items` vector has at most one entry per
`(table_handle, key_hash)` key and is sorted ascending by that key, and the
collapsed `table_metadata` vector has at most one entry per `table_handle`
and is sorted ascending by it; consequently the sorted output is canonical:
sorting any permutation of the pre-sort value set (any iteration order the
hash map could produce) yields the same list, so repeated runs on the same
input emit the same order. -/
theorem C6_sorted_dedup_deterministic (ds : List WriteSetChangeDetail) :
    ((collapsedCurrentTableItems ds).map citKey).Nodup
    ∧ List.Sorted citLe (collapsedCurrentTableItems ds)
    ∧ ((collapsedTableMetadata ds).map TableMetadata.handle).Nodup
    ∧ List.Sorted tmLe (collapsedTableMetadata ds)
    ∧ (∀ l, List.Perm l (currentTableItemsPre ds) →
        List.insertionSort citLe l = collapsedCurrentTableItems ds)
    ∧ (∀ l, List.Perm l (tableMetadataPre ds) →
        List.insertionSort tmLe l = collapsedTableMetadata ds) := by
  refine ⟨?_, ?_, ?_, ?_, ?_, ?_⟩
  · have hp : List.Perm ((collapsedCurrentTableItems ds).map citKey)
        ((currentTableItemsPre ds).map citKey) :=
      (List.perm_insertionSort citLe _).map citKey
    exact hp.nodup_iff.mpr (currentTableItemsPre_keys_nodup ds)
  · exact List.sorted_insertionSort citLe _
  · have hp : List.Perm ((collapsedTableMetadata ds).map TableMetadata.handle)
        ((tableMetadataPre ds).map TableMetadata.handle) :=
      (List.perm_insertionSort tmLe _).map TableMetadata.handle
    exact hp.nodup_iff.mpr (tableMetadataPre_keys_nodup ds)
  · exact List.sorted_insertionSort tmLe _
  · intro l hl
    exact insertionSort_eq_of_perm_of_nodupKeys citLe citKey citLe_key_antisymm
      l _ hl (currentTableItemsPre_keys_nodup ds)
  · intro l hl
    exact insertionSort_eq_of_perm_of_nodupKeys tmLe TableMetadata.handle
      tmLe_key_antisymm l _ hl (tableMetadataPre_keys_nodup ds)

/-- Witness for C6 at a concrete batch: two writes to key `(1,1)` (deduped),
one to `(1,2)`, and metadata for handles 5 and 3; sorting a reversed
permutation of the pre-sort values reproduces the collapsed outputs. -/
theorem C6_sorted_dedup_deterministic_witness :
    List.insertionSort citLe
        [⟨1, 2, "c"⟩, ⟨1, 1, "b"⟩] =
      collapsedCurrentTableItems
        [WriteSetChangeDetail.Table "i" ⟨1, 1, "a"⟩ (some ⟨5, "k", "v"⟩),
          WriteSetChangeDetail.Table "j" ⟨1, 1, "b"⟩ none,
          WriteSetChangeDetail.Table "k" ⟨1, 2, "c"⟩ (some ⟨3, "k2", "v2"⟩)]
    ∧ List.insertionSort tmLe
        [⟨3, "k2", "v2"⟩, ⟨5, "k", "v"⟩] =
      collapsedTableMetadata
        [WriteSetChangeDetail.Table "i" ⟨1, 1, "a"⟩ (some ⟨5, "k", "v"⟩),
          WriteSetChangeDetail.Table "j" ⟨1, 1, "b"⟩ none,
          WriteSetChangeDetail.Table "k" ⟨1, 2, "c"⟩ (some ⟨3, "k2", "v2"⟩)] :=
  ⟨(C6_sorted_dedup_deterministic _).2.2.2.2.1 _ (by decide),
    (C6_sorted_dedup_deterministic _).2.2.2.2.2 _ (by decide)⟩

/-- C1 is false on the code: the per-attempt write body succeeds while
persisting nothing — here a nonempty event batch is simply absent from the
database after the body runs, because every database insert in
`insert_to_db_impl` is commented out. -/
theorem C1_persist_counterexample :
    (insert_to_db_impl [] ([], [], []) ["e0"] [] ([], [], [], [], [])
        ⟨emptyDb, []⟩).2 = Except.ok ()
    ∧ ¬ persistsAllBatches [] ([], [], []) ["e0"] [] ([], [], [], [], [])
        (insert_to_db_impl [] ([], [], []) ["e0"] [] ([], [], [], [], [])
          ⟨emptyDb, []⟩).1.db :=
  ⟨rfl, by decide⟩

/-- C1 (amended): the per-attempt body persists no entity batch at all — the
ten database inserts are disabled (commented out) — and its only effect is to
deliver the transaction batch to the publisher; it leaves the database
untouched and returns `Ok`. -/
theorem C1_write_body_amended (txns : List TransactionModel)
    (txn_details : List UserTransactionModel × List Signature
      × List BlockMetadataTransactionModel)
    (events : List EventModel) (wscs : List WriteSetChangeModel)
    (wsc_details : List MoveModule × List MoveResource × List TableItem
      × List CurrentTableItem × List TableMetadata)
    (s : PState) :
    insert_to_db_impl txns txn_details events wscs wsc_details s =
      ({ s with sent := s.sent ++ [txns] }, Except.ok ()) := rfl

/-- C2 is false on the code: `send_txs` is invoked inside each storage
transaction's closure, so a storage failure that precedes the closure (here
`BEGIN` fails on both attempts) means both attempts fail yet the Forwarder
was never invoked — the batch `["t1"]` is not in the delivery log. -/
theorem C2_forwarding_counterexample :
    (insert_to_db idSanitizer (TxOutcome.failBegin 5) (TxOutcome.failBegin 7)
        NAME 0 1 ["t1"] ([], [], []) [] [] ([], [], [], [], [])
        ⟨emptyDb, []⟩).2 = Except.error 7
    ∧ (insert_to_db idSanitizer (TxOutcome.failBegin 5) (TxOutcome.failBegin 7)
        NAME 0 1 ["t1"] ([], [], []) [] [] ([], [], [], [], [])
        ⟨emptyDb, []⟩).1.sent = []
    ∧ ["t1"] ∉ (insert_to_db idSanitizer (TxOutcome.failBegin 5)
        (TxOutcome.failBegin 7) NAME 0 1 ["t1"] ([], [], []) [] []
        ([], [], [], [], []) ⟨emptyDb, []⟩).1.sent :=
  ⟨rfl, rfl, by decide⟩

/-- C2 (amended): forwarding is executed inside each storage-transaction
attempt's closure (it substitutes for the disabled transactions insert), not
outside it.  Because the delivery is an external side effect, a commit-stage
failure does not retract it: when both attempts run their bodies and fail at
commit, the publisher has been invoked twice — with the original batch, then
with the sanitized batch — while the database is unchanged; but a failure
that precedes the closure (see the counterexample) also suppresses that
attempt's forwarding. -/
theorem C2_forwarding_in_transaction_amended (cf : Sanitizer) (e1 e2 : DbError)
    (name : String) (sv ev : Nat) (txns : List TransactionModel)
    (u : List UserTransactionModel) (sg : List Signature)
    (b : List BlockMetadataTransactionModel) (events : List EventModel)
    (wscs : List WriteSetChangeModel) (mm : List MoveModule)
    (mr : List MoveResource) (ti : List TableItem)
    (cti : List CurrentTableItem) (tm : List TableMetadata) (s : PState) :
    insert_to_db cf (TxOutcome.failCommit e1) (TxOutcome.failCommit e2) name
        sv ev txns (u, sg, b) events wscs (mm, mr, ti, cti, tm) s =
      (⟨s.db, s.sent ++ [txns, cf.cleanTransactions txns]⟩,
        Except.error e2) := by
  simp [insert_to_db, runStorageTx, insert_to_db_impl, insert_transactions]

/-- C3 is false on the code: when both attempts fail, the first attempt's
error is discarded (`Err(_)`) and the error surfaced by
`process_transactions` wraps the retry's cause (here 2), not the original
first-attempt cause (here 1); range and identity are carried unchanged. -/
theorem C3_original_cause_counterexample :
    (process_transactions (fun _ => ([], [], [], [], [])) idSanitizer
        (TxOutcome.failCommit 1) (TxOutcome.failCommit 2) [] 10 20
        ⟨emptyDb, []⟩).2 =
      Except.error
        (TransactionProcessingError.TransactionCommitError 2 10 20 NAME)
    ∧ (process_transactions (fun _ => ([], [], [], [], [])) idSanitizer
        (TxOutcome.failCommit 1) (TxOutcome.failCommit 2) [] 10 20
        ⟨emptyDb, []⟩).2 ≠
      Except.error
        (TransactionProcessingError.TransactionCommitError 1 10 20 NAME) := by
  refine ⟨rfl, fun h => ?_⟩
  have h2 := Except.error.inj h
  cases h2

/-- C3 (amended): when both the original attempt and the sanitized retry
fail, `process_transactions` returns a fatal `TransactionCommitError` that
carries the retry's (second-attempt) cause — the first attempt's cause is
discarded — together with the unchanged `(start_version, end_version)` range
and the processor identity. -/
theorem C3_fatal_error_amended (ft : List Transaction → DecompOutput)
    (cf : Sanitizer) (o1 o2 : TxOutcome) (txs : List Transaction)
    (sv ev : Nat) (s : PState)
    (h1 : o1 ≠ TxOutcome.success) (h2 : o2 ≠ TxOutcome.success) :
    (process_transactions ft cf o1 o2 txs sv ev s).2 =
      Except.error (TransactionProcessingError.TransactionCommitError
        o2.err sv ev NAME) := by
  cases o1 with
  | success => exact absurd rfl h1
  | failBegin e1 =>
    cases o2 with
    | success => exact absurd rfl h2
    | failBegin e2 =>
      simp [process_transactions, insert_to_db, runStorageTx,
        insert_to_db_impl, insert_transactions, TxOutcome.err]
    | failCommit e2 =>
      simp [process_transactions, insert_to_db, runStorageTx,
        insert_to_db_impl, insert_transactions, TxOutcome.err]
  | failCommit e1 =>
    cases o2 with
    | success => exact absurd rfl h2
    | failBegin e2 =>
      simp [process_transactions, insert_to_db, runStorageTx,
        insert_to_db_impl, insert_transactions, TxOutcome.err]
    | failCommit e2 =>
      simp [process_transactions, insert_to_db, runStorageTx,
        insert_to_db_impl, insert_transactions, TxOutcome.err]

/-- Witness for the amended C3 at a concrete run: a begin-stage failure then
a commit-stage failure surface the second cause 4 with range (7, 9) and the
processor name. -/
theorem C3_fatal_error_amended_witness :
    (process_transactions (fun _ => ([], [], [], [], [])) idSanitizer
        (TxOutcome.failBegin 3) (TxOutcome.failCommit 4) [] 7 9
        ⟨emptyDb, []⟩).2 =
      Except.error
        (TransactionProcessingError.TransactionCommitError 4 7 9 NAME) :=
  C3_fatal_error_amended (fun _ => ([], [], [], [], [])) idSanitizer
    (TxOutcome.failBegin 3) (TxOutcome.failCommit 4) [] 7 9 ⟨emptyDb, []⟩
    (by decide) (by decide)

/-- C4: if the first attempt fails (for any failure mode), `insert_to_db`
applies the sanitize pass to all eleven entity batches — never selectively —
and performs exactly one retry, a single fresh storage transaction whose body
receives precisely the eleven sanitized batches; and if the first attempt
succeeds the result is the one-attempt result, mentioning neither the
sanitizer nor the second-attempt machinery: no sanitize pass or retry
occurs. -/
theorem C4_sanitize_all_retry_once (cf : Sanitizer) (o1 o2 : TxOutcome)
    (name : String) (sv ev : Nat) (txns : List TransactionModel)
    (u : List UserTransactionModel) (sg : List Signature)
    (b : List BlockMetadataTransactionModel) (events : List EventModel)
    (wscs : List WriteSetChangeModel) (mm : List MoveModule)
    (mr : List MoveResource) (ti : List TableItem)
    (cti : List CurrentTableItem) (tm : List TableMetadata) (s : PState) :
    (o1 ≠ TxOutcome.success →
      insert_to_db cf o1 o2 name sv ev txns (u, sg, b) events wscs
          (mm, mr, ti, cti, tm) s =
        runStorageTx o2
          (insert_to_db_impl (cf.cleanTransactions txns)
            (cf.cleanUserTransactions u, cf.cleanSignatures sg,
              cf.cleanBlockMetadataTransactions b)
            (cf.cleanEvents events) (cf.cleanWriteSetChanges wscs)
            (cf.cleanMoveModules mm, cf.cleanMoveResources mr,
              cf.cleanTableItems ti, cf.cleanCurrentTableItems cti,
              cf.cleanTableMetadata tm))
          (firstAttemptState o1 txns s))
    ∧ insert_to_db cf TxOutcome.success o2 name sv ev txns (u, sg, b) events
        wscs (mm, mr, ti, cti, tm) s =
      ({ s with sent := s.sent ++ [txns] }, Except.ok ()) := by
  constructor
  · intro h
    cases o1 with
    | success => exact absurd rfl h
    | failBegin e1 =>
      simp [insert_to_db, runStorageTx, insert_to_db_impl,
        insert_transactions, firstAttemptState]
    | failCommit e1 =>
      simp [insert_to_db, runStorageTx, insert_to_db_impl,
        insert_transactions, firstAttemptState]
  · rfl

/-- Witness for C4 at a concrete run: a begin-stage first failure makes the
call equal to the single sanitized retry from the unchanged state. -/
theorem C4_sanitize_all_retry_once_witness :
    insert_to_db idSanitizer (TxOutcome.failBegin 3) TxOutcome.success NAME
        0 0 ["t"] ([], [], []) [] [] ([], [], [], [], []) ⟨emptyDb, []⟩ =
      runStorageTx TxOutcome.success
        (insert_to_db_impl (idSanitizer.cleanTransactions ["t"])
          (idSanitizer.cleanUserTransactions [],
            idSanitizer.cleanSignatures [],
            idSanitizer.cleanBlockMetadataTransactions [])
          (idSanitizer.cleanEvents []) (idSanitizer.cleanWriteSetChanges [])
          (idSanitizer.cleanMoveModules [], idSanitizer.cleanMoveResources [],
            idSanitizer.cleanTableItems [],
            idSanitizer.cleanCurrentTableItems [],
            idSanitizer.cleanTableMetadata []))
        (firstAttemptState (TxOutcome.failBegin 3) ["t"] ⟨emptyDb, []⟩) :=
  (C4_sanitize_all_retry_once idSanitizer (TxOutcome.failBegin 3)
    TxOutcome.success NAME 0 0 ["t"] [] [] [] [] [] [] [] [] [] []
    ⟨emptyDb, []⟩).1 (by decide)

/-- C8: on an empty transaction list the Decomposer's empty output yields
empty entity batches everywhere (the two loops and the collapse produce empty
vectors), the write attempt succeeds as a no-op — the database is unchanged —
and the result is a successful `ProcessingResult` carrying the processor
identity and exactly the given version range.  The Decomposer's empty-input
behavior (`TransactionModel::from_transactions`, not under src/) is the
hypothesis, taken from the spec. -/
theorem C8_empty_batch_success (ft : List Transaction → DecompOutput)
    (cf : Sanitizer) (o2 : TxOutcome) (sv ev : Nat) (s : PState)
    (h : ft [] = ([], [], [], [], [])) :
    splitTxnDetails [] = ([], [], [])
    ∧ collapseWscDetails [] = ([], [], [], [], [])
    ∧ process_transactions ft cf TxOutcome.success o2 [] sv ev s =
      ({ s with sent := s.sent ++ [[]] },
        Except.ok ⟨NAME, sv, ev⟩) := by
  refine ⟨rfl, rfl, ?_⟩
  simp [process_transactions, h, splitTxnDetails, collapseWscDetails,
    collapseWsc, collapsedCurrentTableItems, collapsedTableMetadata,
    currentTableItemsPre, tableMetadataPre, insert_to_db, runStorageTx,
    insert_to_db_impl, insert_transactions]

/-- Witness for C8 with a concrete (trivial) decomposer and range (3, 3). -/
theorem C8_empty_batch_success_witness :
    process_transactions (fun _ => ([], [], [], [], [])) idSanitizer
        TxOutcome.success TxOutcome.success [] 3 3 ⟨emptyDb, []⟩ =
      (⟨emptyDb, [[]]⟩, Except.ok ⟨NAME, 3, 3⟩) :=
  (C8_empty_batch_success (fun _ => ([], [], [], [], [])) idSanitizer
    TxOutcome.success 3 3 ⟨emptyDb, []⟩ rfl).2.2

/-- C9 is false as stated: a first-attempt failure that precedes the closure
(`BEGIN` fails) means the publisher is NOT invoked a second time — the retry's
delivery is the only one, so the sink receives exactly one batch, not two. -/
theorem C9_single_delivery_counterexample :
    (insert_to_db idSanitizer (TxOutcome.failBegin 0) TxOutcome.success NAME
        0 0 ["t"] ([], [], []) [] [] ([], [], [], [], [])
        ⟨emptyDb, []⟩).1.sent = [["t"]]
    ∧ ([["t"]] : List (List TransactionModel)) ≠ [["t"], ["t"]] :=
  ⟨rfl, by decide⟩

/-- C9 (amended): whenever the first attempt's body runs and the attempt then
fails (commit-stage failure), and the retry's body runs, `send_txs` is
invoked a second time during the retry with the sanitized
(`clean_data_for_db`) transaction batch rather than the original: the sink
receives the range twice, original batch then sanitized batch, and the
second delivery may differ from the first. -/
theorem C9_resend_sanitized_amended (cf : Sanitizer) (e1 : DbError)
    (o2 : TxOutcome) (name : String) (sv ev : Nat)
    (txns : List TransactionModel) (u : List UserTransactionModel)
    (sg : List Signature) (b : List BlockMetadataTransactionModel)
    (events : List EventModel) (wscs : List WriteSetChangeModel)
    (mm : List MoveModule) (mr : List MoveResource) (ti : List TableItem)
    (cti : List CurrentTableItem) (tm : List TableMetadata) (s : PState)
    (h : o2.bodyRuns) :
    (insert_to_db cf (TxOutcome.failCommit e1) o2 name sv ev txns (u, sg, b)
        events wscs (mm, mr, ti, cti, tm) s).1.sent =
      s.sent ++ [txns, cf.cleanTransactions txns] := by
  cases o2 with
  | success =>
    simp [insert_to_db, runStorageTx, insert_to_db_impl, insert_transactions]
  | failBegin e2 => exact absurd h (by simp [TxOutcome.bodyRuns])
  | failCommit e2 =>
    simp [insert_to_db, runStorageTx, insert_to_db_impl, insert_transactions]

/-- Witness for the amended C9 with a sanitizer that drops every transaction
record: after a commit-stage first failure the sink has received the
original batch `["t"]` and then the sanitized batch `[]`, which differs. -/
theorem C9_resend_sanitized_amended_witness :
    (insert_to_db ⟨fun _ => [], id, id, id, id, id, id, id, id, id, id⟩
        (TxOutcome.failCommit 1) TxOutcome.success NAME 0 0 ["t"]
        ([], [], []) [] [] ([], [], [], [], []) ⟨emptyDb, []⟩).1.sent =
      [["t"], []]
    ∧ (["t"] : List TransactionModel) ≠ [] :=
  ⟨C9_resend_sanitized_amended ⟨fun _ => [], id, id, id, id, id, id, id, id,
      id, id⟩ 1 TxOutcome.success NAME 0 0 ["t"] [] [] [] [] [] [] [] [] []
      [] ⟨emptyDb, []⟩ (by decide),
    by decide⟩

/-- C10: the per-attempt write body is infallible: `insert_transactions`
always returns `Ok`, hence `insert_to_db_impl` always returns `Ok` (its error
branch is unreachable), and a failed attempt can only originate from the
surrounding storage-transaction machinery, never from an entity write inside
the body. -/
theorem C10_impl_always_ok (txns : List TransactionModel)
    (txn_details : List UserTransactionModel × List Signature
      × List BlockMetadataTransactionModel)
    (events : List EventModel) (wscs : List WriteSetChangeModel)
    (wsc_details : List MoveModule × List MoveResource × List TableItem
      × List CurrentTableItem × List TableMetadata) :
    (∀ s, (insert_transactions txns s).2 = Except.ok ())
    ∧ (∀ s, (insert_to_db_impl txns txn_details events wscs wsc_details s).2 =
        Except.ok ())
    ∧ (∀ (o : TxOutcome) (s : PState) (e : DbError),
        (runStorageTx o
            (insert_to_db_impl txns txn_details events wscs wsc_details)
            s).2 = Except.error e →
          o ≠ TxOutcome.success) := by
  refine ⟨fun s => rfl, fun s => rfl, ?_⟩
  intro o s e h
  cases o with
  | success =>
    simp [runStorageTx, insert_to_db_impl, insert_transactions] at h
  | failBegin e2 => simp
  | failCommit e2 => simp

/-- Witness for C10 at a concrete run: the body returns `Ok`, and a failed
attempt (begin-stage failure 5) is indeed not the success outcome. -/
theorem C10_impl_always_ok_witness :
    (insert_to_db_impl ["t"] ([], [], []) [] [] ([], [], [], [], [])
        ⟨emptyDb, []⟩).2 = Except.ok ()
    ∧ TxOutcome.failBegin 5 ≠ TxOutcome.success :=
  ⟨(C10_impl_always_ok ["t"] ([], [], []) [] []
      ([], [], [], [], [])).2.1 ⟨emptyDb, []⟩,
    (C10_impl_always_ok ["t"] ([], [], []) [] []
      ([], [], [], [], [])).2.2 (TxOutcome.failBegin 5) ⟨emptyDb, []⟩ 5 rfl⟩
